import Mathlib

/-!
Verification of the barq-db filtered and batch vector-search execution engine
against its specification, together with an embedding of the TypeScript SDK's
`Collection.search` variants.  The engine itself (filtered search, selectivity
estimation, strategy planning, batch execution) is present in the repository
only as design documentation with declarations and tests; the executable
definitions below are therefore modelled from the specification text, while the
SDK definitions are translated directly from the TypeScript sources.
-/

namespace Barq

/-- Payload values attached to documents: strings, rational-valued numbers
(modelling the source's JSON numbers exactly) and booleans. -/
inductive Value where
  | str (s : String)
  | num (q : ℚ)
  | boolean (b : Bool)
deriving DecidableEq

/-- A document record: opaque id (modelled as `Nat`), vector and payload,
owned by the external index collaborator. -/
structure Doc where
  id : Nat
  vector : List ℚ
  payload : List (String × Value)
deriving DecidableEq

/-- Filter predicates over named payload fields: `Eq`, ranges
(`Gt`/`Gte`/`Lt`/`Lte`), `In`, `Not`, `And(list)`, `Or(list)`. -/
inductive Filter where
  | eq (field : String) (value : Value)
  | gt (field : String) (bound : ℚ)
  | gte (field : String) (bound : ℚ)
  | lt (field : String) (bound : ℚ)
  | lte (field : String) (bound : ℚ)
  | isIn (field : String) (values : List Value)
  | not (f : Filter)
  | and (fs : List Filter)
  | or (fs : List Filter)

/-- Look a field up in a payload (first binding wins). -/
def lookupField (p : List (String × Value)) (fld : String) : Option Value :=
  (p.find? (fun kv => kv.1 == fld)).map (fun kv => kv.2)

mutual

/-- Whether a payload satisfies a filter predicate.  Range predicates apply to
numeric payload values only; a missing or non-numeric field never matches. -/
def Filter.matchesP : Filter → List (String × Value) → Bool
  | .eq fld v, p => lookupField p fld == some v
  | .gt fld b, p =>
    match lookupField p fld with
    | some (.num q) => decide (b < q)
    | _ => false
  | .gte fld b, p =>
    match lookupField p fld with
    | some (.num q) => decide (b ≤ q)
    | _ => false
  | .lt fld b, p =>
    match lookupField p fld with
    | some (.num q) => decide (q < b)
    | _ => false
  | .lte fld b, p =>
    match lookupField p fld with
    | some (.num q) => decide (q ≤ b)
    | _ => false
  | .isIn fld vs, p =>
    match lookupField p fld with
    | some v => vs.contains v
    | none => false
  | .not g, p => !(g.matchesP p)
  | .and fs, p => Filter.allMatchP fs p
  | .or fs, p => Filter.anyMatchP fs p

/-- Conjunction of a list of filters against one payload. -/
def Filter.allMatchP : List Filter → List (String × Value) → Bool
  | [], _ => true
  | f :: fs, p => f.matchesP p && Filter.allMatchP fs p

/-- Disjunction of a list of filters against one payload. -/
def Filter.anyMatchP : List Filter → List (String × Value) → Bool
  | [], _ => false
  | f :: fs, p => f.matchesP p || Filter.anyMatchP fs p

end

/-- Modelled from the spec: the spec's §4.2 clamps `Eq` (and compound)
estimates to `[epsilon, 1]` but never fixes `epsilon`; any value in `(0, 1/2]`
satisfies every stated property, and we fix `1/1000`. -/
def selectivityEpsilon : ℚ := 1 / 1000

/-- Clamp an estimate into `[epsilon, 1]`. -/
def clampUnit (x : ℚ) : ℚ := max selectivityEpsilon (min 1 x)

/-- Modelled from the spec: `SelectivityEstimator` state (§3, §4.2 and the
design document's declaration): a field → distinct-value-cardinality mapping
plus the total document count. -/
structure SelectivityEstimator where
  field_cardinalities : List (String × Nat)
  total_documents : Nat

/-- Cardinality statistics lookup; `none` means the field is unknown. -/
def SelectivityEstimator.cardinality (e : SelectivityEstimator) (fld : String) :
    Option Nat :=
  (e.field_cardinalities.find? (fun kv => kv.1 == fld)).map (fun kv => kv.2)

mutual

/-- Modelled from the spec (§4.2, the engine implementation exists only as a
declaration in the design document): `Eq` is `1/cardinality` clamped to
`[epsilon,1]` with conservative default `1/2` for unknown fields, ranges are
`33/100`, `And` is the clamped product of child estimates, `Or` is the clamped
complement-product, `Not` is the complement, `In` is `min 1 (k/cardinality)`. -/
def SelectivityEstimator.estimate (e : SelectivityEstimator) : Filter → ℚ
  | .eq fld _ =>
    match e.cardinality fld with
    | some c => clampUnit (1 / (c : ℚ))
    | none => 1 / 2
  | .gt _ _ => 33 / 100
  | .gte _ _ => 33 / 100
  | .lt _ _ => 33 / 100
  | .lte _ _ => 33 / 100
  | .isIn fld vs =>
    match e.cardinality fld with
    | some c => min 1 ((vs.length : ℚ) / (c : ℚ))
    | none => 1 / 2
  | .not g => 1 - e.estimate g
  | .and fs => clampUnit (SelectivityEstimator.estimateProd e fs)
  | .or fs => clampUnit (1 - SelectivityEstimator.estimateNegProd e fs)

/-- Product of the child estimates of an `And` list. -/
def SelectivityEstimator.estimateProd (e : SelectivityEstimator) :
    List Filter → ℚ
  | [] => 1
  | f :: fs => e.estimate f * SelectivityEstimator.estimateProd e fs

/-- Product of the complements of the child estimates of an `Or` list. -/
def SelectivityEstimator.estimateNegProd (e : SelectivityEstimator) :
    List Filter → ℚ
  | [] => 1
  | f :: fs => (1 - e.estimate f) * SelectivityEstimator.estimateNegProd e fs

end

/-- Filter-application strategy, as declared in the design document. -/
inductive FilterStrategy where
  | preFilter
  | postFilter
  | auto (selectivity_threshold : ℚ)
deriving DecidableEq

/-- The planner's resolved decision: a concrete pre- or post-filter choice. -/
inductive Decision where
  | usePre
  | usePost
deriving DecidableEq

/-- Modelled from the spec (§4.3, `FilteredVectorSearch::choose_strategy` is
only declared in the design document): explicit configurations are honored
verbatim; `Auto` picks `PreFilter` exactly when the estimate is strictly below
the threshold, else `PostFilter`. -/
def choose_strategy (e : SelectivityEstimator) (f : Filter) :
    FilterStrategy → Decision
  | .preFilter => .usePre
  | .postFilter => .usePost
  | .auto t => if e.estimate f < t then .usePre else .usePost

/-- A search result: id, score and payload snapshot. -/
structure SearchResult where
  id : Nat
  score : ℚ
  payload : List (String × Value)
deriving DecidableEq

/-- The ranking preorder on results: by score — descending for similarity
metrics, ascending for distance metrics — with ties broken by ascending id. -/
def rankLE (sim : Bool) (a b : SearchResult) : Prop :=
  match sim with
  | true => b.score < a.score ∨ (a.score = b.score ∧ a.id ≤ b.id)
  | false => a.score < b.score ∨ (a.score = b.score ∧ a.id ≤ b.id)

instance rankLE.decidable (sim : Bool) : DecidableRel (rankLE sim) := by
  intro a b
  cases sim
  · exact inferInstanceAs
      (Decidable (a.score < b.score ∨ (a.score = b.score ∧ a.id ≤ b.id)))
  · exact inferInstanceAs
      (Decidable (b.score < a.score ∨ (a.score = b.score ∧ a.id ≤ b.id)))

instance rankLE.total (sim : Bool) : IsTotal SearchResult (rankLE sim) := by
  constructor
  intro a b
  cases sim <;> simp only [rankLE]
  · rcases lt_trichotomy a.score b.score with h | h | h
    · exact Or.inl (Or.inl h)
    · rcases Nat.le_total a.id b.id with hid | hid
      · exact Or.inl (Or.inr ⟨h, hid⟩)
      · exact Or.inr (Or.inr ⟨h.symm, hid⟩)
    · exact Or.inr (Or.inl h)
  · rcases lt_trichotomy a.score b.score with h | h | h
    · exact Or.inr (Or.inl h)
    · rcases Nat.le_total a.id b.id with hid | hid
      · exact Or.inl (Or.inr ⟨h, hid⟩)
      · exact Or.inr (Or.inr ⟨h.symm, hid⟩)
    · exact Or.inl (Or.inl h)

instance rankLE.trans (sim : Bool) : IsTrans SearchResult (rankLE sim) := by
  constructor
  intro a b c hab hbc
  cases sim <;> simp only [rankLE] at *
  · rcases hab with h1 | ⟨e1, i1⟩
    · rcases hbc with h2 | ⟨e2, _⟩
      · exact Or.inl (h1.trans h2)
      · exact Or.inl (e2 ▸ h1)
    · rcases hbc with h2 | ⟨e2, i2⟩
      · exact Or.inl (e1 ▸ h2)
      · exact Or.inr ⟨e1.trans e2, i1.trans i2⟩
  · rcases hab with h1 | ⟨e1, i1⟩
    · rcases hbc with h2 | ⟨e2, _⟩
      · exact Or.inl (h2.trans h1)
      · exact Or.inl (e2 ▸ h1)
    · rcases hbc with h2 | ⟨e2, i2⟩
      · exact Or.inl (by rw [e1]; exact h2)
      · exact Or.inr ⟨e1.trans e2, i1.trans i2⟩

/-- Modelled from the spec: the external `VectorIndex` collaborator (§6) —
a corpus of documents, the configured dimension, a deterministic per-query
scoring function (the distance-kernel composition) and the orientation of the
metric (`similarity = true` ranks descending, distance ranks ascending). -/
structure VectorIndex where
  dimension : Nat
  docs : List Doc
  score : List ℚ → Doc → ℚ
  similarity : Bool

/-- Turn a document into a result for a given query. -/
def VectorIndex.toResult (ix : VectorIndex) (q : List ℚ) (d : Doc) :
    SearchResult :=
  ⟨d.id, ix.score q d, d.payload⟩

/-- Score and rank a document subset for a query. -/
def VectorIndex.rank (ix : VectorIndex) (q : List ℚ) (ds : List Doc) :
    List SearchResult :=
  List.insertionSort (rankLE ix.similarity) (ds.map (ix.toResult q))

/-- The collaborator's `search(query, top_k)`: rank the whole corpus and keep
the best `top_k`. -/
def VectorIndex.search (ix : VectorIndex) (q : List ℚ) (k : Nat) :
    List SearchResult :=
  (ix.rank q ix.docs).take k

/-- The collaborator's `search_within(id_subset, query, top_k)`. -/
def VectorIndex.search_within (ix : VectorIndex) (ids : List Nat) (q : List ℚ)
    (k : Nat) : List SearchResult :=
  (ix.rank q (ix.docs.filter (fun d => ids.contains d.id))).take k

/-- The collaborator's `len()`. -/
def VectorIndex.len (ix : VectorIndex) : Nat := ix.docs.length

/-- The filter-index collaborator's `matching_ids(filter)` (§6). -/
def matching_ids (ix : VectorIndex) (f : Filter) : List Nat :=
  (ix.docs.filter (fun d => f.matchesP d.payload)).map Doc.id

/-- Engine error outcomes (§7). -/
inductive VError where
  | dimensionMismatch
  | indexUnavailable
  | cancelled
deriving DecidableEq

/-- Modelled from the spec (§4.4): PreFilter obtains the id subset satisfying
the filter from the filter-index collaborator and searches restricted to it. -/
def execute_pre_filter (ix : VectorIndex) (f : Filter) (q : List ℚ) (k : Nat) :
    List SearchResult :=
  ix.search_within (matching_ids ix f) q k

/-- One PostFilter rung: request `top_k * multiplier` candidates from the
unrestricted index, apply the predicate, truncate to `top_k`. -/
def post_filter_step (ix : VectorIndex) (f : Filter) (q : List ℚ) (k m : Nat) :
    List SearchResult :=
  ((ix.search q (k * m)).filter (fun r => f.matchesP r.payload)).take k

/-- Modelled from the spec (§4.4): the PostFilter multiplier ladder — escalate
to the next rung only while the filtered results number fewer than `top_k` and
more candidates exist; exhausting the ladder returns the (possibly short) last
rung as a normal outcome. -/
def execute_post_filter (ix : VectorIndex) (f : Filter) (q : List ℚ) (k : Nat) :
    List Nat → List SearchResult
  | [] => []
  | [m] => post_filter_step ix f q k m
  | m :: m2 :: ms =>
    if (post_filter_step ix f q k m).length < k ∧ k * m < ix.len then
      execute_post_filter ix f q k (m2 :: ms)
    else post_filter_step ix f q k m

/-- The collaborator's caller-facing fallible search: validates the query
dimension and otherwise delegates to `search`. -/
def VectorIndex.searchE (ix : VectorIndex) (q : List ℚ) (k : Nat) :
    Except VError (List SearchResult) :=
  if q.length = ix.dimension then .ok (ix.search q k)
  else .error .dimensionMismatch

/-- Modelled from the spec (§4.4, §7): the filtered-search executor — validate
the dimension, then with no filter delegate to the index, otherwise dispatch
on the planner's decision. -/
def filtered_search (ix : VectorIndex) (ladder : List Nat)
    (est : SelectivityEstimator) (filterOpt : Option Filter)
    (strat : FilterStrategy) (q : List ℚ) (k : Nat) :
    Except VError (List SearchResult) :=
  if q.length = ix.dimension then
    .ok (match filterOpt with
      | none => ix.search q k
      | some f =>
        match choose_strategy est f strat with
        | .usePre => execute_pre_filter ix f q k
        | .usePost => execute_post_filter ix f q k ladder)
  else .error .dimensionMismatch

/-- Batch execution configuration (§3). -/
structure BatchConfig where
  max_parallelism : Nat
  enable_prefetch : Bool
  chunk_size : Nat

/-- Partition a list into chunks; chunk `n` below `1` degrades to size `1`
(the spec's `BatchConfig` invariant requires `chunk_size > 0`). -/
def chunksOf (n : Nat) : List α → List (List α)
  | [] => []
  | x :: xs => (x :: xs.take (n - 1)) :: chunksOf n (xs.drop (n - 1))
termination_by l => l.length
decreasing_by simp only [List.length_drop, List.length_cons]; omega

/-- Tag list elements with consecutive indices starting at `i`. -/
def tagFrom (i : Nat) : List α → List (Nat × α)
  | [] => []
  | x :: xs => (i, x) :: tagFrom (i + 1) xs

/-- One batch worker unit of work: a single query through the filtered-search
executor. -/
def runQuery (ix : VectorIndex) (ladder : List Nat)
    (est : SelectivityEstimator) (strat : FilterStrategy) (k : Nat)
    (qf : List ℚ × Option Filter) : Except VError (List SearchResult) :=
  filtered_search ix ladder est qf.2 strat qf.1 k

/-- Modelled from the spec (§4.5): the index-tagged per-query outcomes the
worker pool produces — queries tagged with their original position, split into
chunks of `chunk_size`, each chunk processed by a worker. -/
def worker_outputs (cfg : BatchConfig) (ix : VectorIndex) (ladder : List Nat)
    (est : SelectivityEstimator) (strat : FilterStrategy) (k : Nat)
    (queries : List (List ℚ × Option Filter)) :
    List (Nat × Except VError (List SearchResult)) :=
  ((chunksOf cfg.chunk_size (tagFrom 0 queries)).map
    (fun chunk => chunk.map
      (fun p => (p.1, runQuery ix ladder est strat k p.2)))).flatten

/-- Modelled from the spec (§4.5, §5): output-list assembly after the join
barrier — each output slot is looked up by its original query index in the
completed-work list, whatever completion order produced it; a slot that never
completed is marked `cancelled` (§5). -/
def batch_assemble (queries : List (List ℚ × Option Filter))
    (completed : List (Nat × Except VError (List SearchResult))) :
    List (Except VError (List SearchResult)) :=
  (List.range queries.length).map (fun i =>
    match completed.find? (fun p => p.1 == i) with
    | some p => p.2
    | none => .error .cancelled)

/-- The claimed strict result ordering: by score — descending for similarity
metrics, ascending for distance metrics — with ties broken by strictly
ascending id. -/
def rankedBefore (sim : Bool) (a b : SearchResult) : Prop :=
  match sim with
  | true => b.score < a.score ∨ (a.score = b.score ∧ a.id < b.id)
  | false => a.score < b.score ∨ (a.score = b.score ∧ a.id < b.id)

/-- Exact dot product of rational vectors (zero beyond the shorter operand). -/
def dotQ : List ℚ → List ℚ → ℚ
  | a :: as, b :: bs => a * b + dotQ as bs
  | _, _ => 0

/-- Payload of the scenario documents in category `a`. -/
def catA : List (String × Value) := [("cat", Value.str ("a"))]

/-- Payload of the scenario document in category `b`. -/
def catB : List (String × Value) := [("cat", Value.str ("b"))]

/-- Scenario document 1 of §8: vector `[1, 0]`, category `a`. -/
def docA1 : Doc := ⟨1, [1, 0], catA⟩

/-- Scenario document 2 of §8: vector `[0.9, 0.1]`, category `a`. -/
def docA2 : Doc := ⟨2, [9 / 10, 1 / 10], catA⟩

/-- Scenario document 3 of §8: vector `[0, 1]`, category `b`. -/
def docB3 : Doc := ⟨3, [0, 1], catB⟩

/-- Modelled from the spec: the §8 scenario collaborator over the three-document
corpus.  The spec names the Cosine metric; cosine similarity needs a square
root and is not exactly computable over ℚ, but for this corpus and the scenario
query `[1, 0]` the cosine ranking (`1, ≈0.994, 0`) coincides with the exactly
computable dot-product ranking (`1, 9/10, 0`), and the scenario expectation
checked here constrains ids and result count only, so the deterministic
external collaborator is modelled with dot-product scores. -/
def scenarioIndex : VectorIndex :=
  ⟨2, [docA1, docA2, docB3], fun q d => dotQ q d.vector, true⟩

/-- The §8 filter `Eq(cat, "a")`. -/
def filterCatA : Filter := .eq ("cat") (Value.str ("a"))

/-- The §8 filter `Eq(cat, "b")`. -/
def filterCatB : Filter := .eq ("cat") (Value.str ("b"))

/-- The §8 Scenario C estimator state: `cardinality(cat) = 2`, `total = 3`. -/
def scenarioEstimator : SelectivityEstimator := ⟨[("cat", 2)], 3⟩

end Barq

namespace BarqTS

/-- The JSON body `Collection.search` serializes in every TypeScript variant:
exactly the four arguments, under the keys `vector`, `query`, `top_k`,
`filter`.  The pass-through `filter: any` is modelled by its serialized
form. -/
structure SearchBody where
  vector : Option (List ℚ)
  query : Option String
  top_k : Nat
  filter : Option String
deriving DecidableEq

/-- A computed HTTP request: endpoint path and serialized body. -/
structure SearchRequest where
  path : String
  body : SearchBody
deriving DecidableEq

/-- Thrown JavaScript errors of the SDK's search path. -/
inductive JsError where
  | invalidElifConstruct
deriving DecidableEq

/-- JavaScript truthiness of the optional vector argument: an array is truthy
(even when empty), `undefined` is falsy. -/
def truthyVec : Option (List ℚ) → Bool
  | some _ => true
  | none => false

/-- JavaScript truthiness of the optional query string: `undefined` and the
empty string are falsy. -/
def truthyStr : Option String → Bool
  | some s => !s.isEmpty
  | none => false

/-- `Collection.search` of src/unnamed/part_003 (lines 81–104).  Its routing
reads `if (vector && query) path += "/hybrid"; elif(query) path += "/text";`.
`elif` is not an ECMAScript or TypeScript construct, and no line terminator
separates `elif(query)` from `path`, so automatic semicolon insertion cannot
apply: the module fails to parse (and even a forced emit would invoke the
undefined identifier `elif`).  Every invocation of this variant therefore
throws instead of issuing a request. -/
def search_part003 (_name : String) (_vector : Option (List ℚ))
    (_query : Option String) (_topK : Nat) (_filt : Option String) :
    Except JsError SearchRequest :=
  .error .invalidElifConstruct

/-- `Collection.search` of src/unnamed/part_004 (lines 81–103): route to
`/search/hybrid` when both vector and query are truthy, to `/search/text` when
only the query is, else to `/search`; body `{vector, query, top_k, filter}`. -/
def search_part004 (name : String) (vector : Option (List ℚ))
    (query : Option String) (topK : Nat) (filt : Option String) :
    Except JsError SearchRequest :=
  let base := "/collections/" ++ name ++ "/search"
  let path :=
    if truthyVec vector && truthyStr query then base ++ "/hybrid"
    else if truthyStr query then base ++ "/text"
    else base
  .ok ⟨path, ⟨vector, query, topK, filt⟩⟩

/-- `Collection.search` of the compiled src/unnamed/part_005 (lines 93–111):
same routing with `else if (query)`, body `{vector, query, top_k, filter}`. -/
def search_part005 (name : String) (vector : Option (List ℚ))
    (query : Option String) (topK : Nat) (filt : Option String) :
    Except JsError SearchRequest :=
  let base := "/collections/" ++ name ++ "/search"
  let path :=
    if truthyVec vector && truthyStr query then base ++ "/hybrid"
    else if truthyStr query then base ++ "/text"
    else base
  .ok ⟨path, ⟨vector, query, topK, filt⟩⟩

end BarqTS

namespace Barq

theorem clampUnit_mem (x : ℚ) : 0 ≤ clampUnit x ∧ clampUnit x ≤ 1 := by
  unfold clampUnit selectivityEpsilon
  constructor
  · exact le_trans (by norm_num) (le_max_left _ _)
  · exact max_le (by norm_num) (min_le_left _ _)

theorem estimate_bounds (e : SelectivityEstimator) :
    ∀ f : Filter, 0 ≤ e.estimate f ∧ e.estimate f ≤ 1
  | .eq fld _ => by
    cases hc : e.cardinality fld <;>
      simp only [SelectivityEstimator.estimate, hc]
    · norm_num
    · exact clampUnit_mem _
  | .gt _ _ => by simp only [SelectivityEstimator.estimate]; norm_num
  | .gte _ _ => by simp only [SelectivityEstimator.estimate]; norm_num
  | .lt _ _ => by simp only [SelectivityEstimator.estimate]; norm_num
  | .lte _ _ => by simp only [SelectivityEstimator.estimate]; norm_num
  | .isIn fld vs => by
    cases hc : e.cardinality fld <;>
      simp only [SelectivityEstimator.estimate, hc]
    · norm_num
    · refine ⟨le_min (by norm_num) ?_, min_le_left _ _⟩
      exact div_nonneg (Nat.cast_nonneg _) (Nat.cast_nonneg _)
  | .not g => by
    have ih := estimate_bounds e g
    simp only [SelectivityEstimator.estimate]
    constructor <;> linarith [ih.1, ih.2]
  | .and fs => by
    simp only [SelectivityEstimator.estimate]
    exact clampUnit_mem _
  | .or fs => by
    simp only [SelectivityEstimator.estimate]
    exact clampUnit_mem _

/-- C2: for every filter predicate and estimator state,
`SelectivityEstimator.estimate` returns a value in `[0,1]`, and it satisfies
the §4.2 defining rules: `Eq(f,_)` is `1/cardinality(f)` clamped to
`[epsilon,1]` with conservative default `1/2` for an unknown field, range
predicates are `33/100`, `And` is the clamped product of child estimates, `Or`
is the clamped complement `1 - Π(1 - child)`, `Not(f)` is `1 - estimate(f)`,
and `In(f, k values)` is `min 1 (k/cardinality(f))`. -/
theorem C2_estimate_spec (e : SelectivityEstimator) (f : Filter) :
    (0 ≤ e.estimate f ∧ e.estimate f ≤ 1)
    ∧ (∀ fld v c, e.cardinality fld = some c →
        e.estimate (.eq fld v) = clampUnit (1 / (c : ℚ)))
    ∧ (∀ fld v, e.cardinality fld = none → e.estimate (.eq fld v) = 1 / 2)
    ∧ (∀ fld b, e.estimate (.gt fld b) = 33 / 100)
    ∧ (∀ fld b, e.estimate (.gte fld b) = 33 / 100)
    ∧ (∀ fld b, e.estimate (.lt fld b) = 33 / 100)
    ∧ (∀ fld b, e.estimate (.lte fld b) = 33 / 100)
    ∧ (∀ fs, e.estimate (.and fs) =
        clampUnit (SelectivityEstimator.estimateProd e fs))
    ∧ (∀ fs, e.estimate (.or fs) =
        clampUnit (1 - SelectivityEstimator.estimateNegProd e fs))
    ∧ (∀ g, e.estimate (.not g) = 1 - e.estimate g)
    ∧ (∀ fld vs c, e.cardinality fld = some c →
        e.estimate (.isIn fld vs) = min 1 ((vs.length : ℚ) / (c : ℚ))) := by
  refine ⟨estimate_bounds e f, ?_, ?_, ?_, ?_, ?_, ?_, ?_, ?_, ?_, ?_⟩ <;>
    intros <;> simp_all [SelectivityEstimator.estimate]

/-- Closed instance of `C2_estimate_spec`: the Scenario C estimator at a
concrete filter, with the known-cardinality hypothesis discharged. -/
theorem C2_estimate_witness :
    (0 ≤ scenarioEstimator.estimate (.not filterCatA)
      ∧ scenarioEstimator.estimate (.not filterCatA) ≤ 1)
    ∧ scenarioEstimator.estimate (.eq ("cat") (Value.str ("a")))
        = clampUnit (1 / ((2 : Nat) : ℚ)) := by
  refine ⟨(C2_estimate_spec scenarioEstimator (.not filterCatA)).1, ?_⟩
  exact (C2_estimate_spec scenarioEstimator (.not filterCatA)).2.1
    ("cat") (Value.str ("a")) 2
    (by simp [scenarioEstimator, SelectivityEstimator.cardinality])

/-- C3: `choose_strategy` honors an explicit `PreFilter`/`PostFilter`
verbatim; under `Auto{threshold}` it returns `PreFilter` exactly when the
estimate is strictly below the threshold and `PostFilter` otherwise (equality
yields `PostFilter`); and in Scenario C — `cardinality(cat) = 2`, `total = 3` —
`estimate(Eq(cat, "a")) = 1/2` and `Auto{threshold = 3/10}` chooses
`PostFilter`. -/
theorem C3_choose_strategy_spec :
    (∀ e f, choose_strategy e f .preFilter = .usePre)
    ∧ (∀ e f, choose_strategy e f .postFilter = .usePost)
    ∧ (∀ (e : SelectivityEstimator) f t,
        choose_strategy e f (.auto t) = .usePre ↔ e.estimate f < t)
    ∧ (∀ (e : SelectivityEstimator) f t,
        choose_strategy e f (.auto t) = .usePost ↔ t ≤ e.estimate f)
    ∧ scenarioEstimator.estimate filterCatA = 1 / 2
    ∧ choose_strategy scenarioEstimator filterCatA (.auto (3 / 10))
        = .usePost := by
  have hest : scenarioEstimator.estimate filterCatA = 1 / 2 := by
    simp only [scenarioEstimator, filterCatA, SelectivityEstimator.estimate,
      SelectivityEstimator.cardinality, List.find?, clampUnit,
      selectivityEpsilon]
    norm_num
  refine ⟨fun e f => rfl, fun e f => rfl, ?_, ?_, hest, ?_⟩
  · intro e f t
    simp only [choose_strategy]
    constructor
    · intro hpe
      by_contra hnot
      rw [if_neg hnot] at hpe
      exact Decision.noConfusion hpe
    · intro hlt
      rw [if_pos hlt]
  · intro e f t
    simp only [choose_strategy]
    constructor
    · intro hpo
      by_cases h : e.estimate f < t
      · rw [if_pos h] at hpo
        exact Decision.noConfusion hpo
      · exact not_lt.mp h
    · intro hle
      rw [if_neg (not_lt.mpr hle)]
  · simp only [choose_strategy, hest]
    rw [if_neg (by norm_num)]

/-- Closed instance of `C3_choose_strategy_spec` at the Scenario C data. -/
theorem C3_choose_strategy_witness :
    choose_strategy scenarioEstimator filterCatA .preFilter = .usePre
    ∧ choose_strategy scenarioEstimator filterCatA (.auto (3 / 10))
        = .usePost :=
  ⟨C3_choose_strategy_spec.1 scenarioEstimator filterCatA,
    C3_choose_strategy_spec.2.2.2.2.2⟩

/-- C4: `filtered_search` with no filter returns exactly the index
collaborator's direct fallible `search(query, top_k)` outcome, for every
ladder, estimator, configured strategy, query vector and `top_k`. -/
theorem C4_no_filter_pass_through (ix : VectorIndex) (ladder : List Nat)
    (est : SelectivityEstimator) (strat : FilterStrategy) (q : List ℚ)
    (k : Nat) :
    filtered_search ix ladder est none strat q k = ix.searchE q k := by
  unfold filtered_search VectorIndex.searchE
  by_cases h : q.length = ix.dimension <;> simp [h]

end Barq

namespace BarqTS

/-- C10: the three TypeScript `Collection.search` variants do not agree.  The
compiled part_005 and the variant in part_004 compute identical requests on
every argument combination, but part_003's `elif(query)` is not a valid
construct, so a text-only search throws there while parts 004/005 route it to
the `/search/text` endpoint with the expected body. -/
theorem C10_sdk_search_divergence :
    search_part003 ("docs") none (some ("hello")) 10 none
        = .error .invalidElifConstruct
    ∧ search_part004 ("docs") none (some ("hello")) 10 none
        = .ok ⟨"/collections/docs/search/text", ⟨none, some ("hello"), 10, none⟩⟩
    ∧ search_part005 ("docs") none (some ("hello")) 10 none
        = .ok ⟨"/collections/docs/search/text", ⟨none, some ("hello"), 10, none⟩⟩
    ∧ ∀ name vector query topK filt,
        search_part004 name vector query topK filt
          = search_part005 name vector query topK filt := by
  exact ⟨rfl, rfl, rfl, fun name vector query topK filt => rfl⟩

end BarqTS

namespace Barq

theorem rank_sorted (ix : VectorIndex) (q : List ℚ) (ds : List Doc) :
    (ix.rank q ds).Pairwise (rankLE ix.similarity) :=
  List.sorted_insertionSort _ _

theorem rank_perm (ix : VectorIndex) (q : List ℚ) (ds : List Doc) :
    (ix.rank q ds).Perm (ds.map (ix.toResult q)) :=
  List.perm_insertionSort _ _

theorem rank_mem {ix : VectorIndex} {q : List ℚ} {ds : List Doc}
    {r : SearchResult} (h : r ∈ ix.rank q ds) :
    ∃ d ∈ ds, r = ix.toResult q d := by
  rcases List.mem_map.mp ((rank_perm ix q ds).mem_iff.mp h) with ⟨d, hd, he⟩
  exact ⟨d, hd, he.symm⟩

theorem rank_ids_nodup {ix : VectorIndex} {q : List ℚ} {ds : List Doc}
    (h : (ds.map Doc.id).Nodup) :
    ((ix.rank q ds).map SearchResult.id).Nodup := by
  have hmap : (ds.map (ix.toResult q)).map SearchResult.id = ds.map Doc.id := by
    rw [List.map_map]
    exact rfl
  have hperm := (rank_perm ix q ds).map SearchResult.id
  exact hperm.symm.nodup (by rw [hmap]; exact h)

theorem mem_search_within {ix : VectorIndex} {ids : List Nat} {q : List ℚ}
    {k : Nat} {r : SearchResult} (h : r ∈ ix.search_within ids q k) :
    ∃ d ∈ ix.docs, ids.contains d.id = true ∧ r = ix.toResult q d := by
  unfold VectorIndex.search_within at h
  have h2 : r ∈ ix.rank q (ix.docs.filter fun d => ids.contains d.id) :=
    List.mem_of_mem_take h
  rcases rank_mem h2 with ⟨d, hd, he⟩
  rcases List.mem_filter.mp hd with ⟨hdd, hil⟩
  exact ⟨d, hdd, hil, he⟩

theorem pre_filter_sound {ix : VectorIndex} {f : Filter} {q : List ℚ} {k : Nat}
    {r : SearchResult} (hnd : (ix.docs.map Doc.id).Nodup)
    (h : r ∈ execute_pre_filter ix f q k) : f.matchesP r.payload = true := by
  rcases mem_search_within h with ⟨d, hd, hcont, he⟩
  have hidmem : d.id ∈ matching_ids ix f := List.elem_iff.mp hcont
  unfold matching_ids at hidmem
  rcases List.mem_map.mp hidmem with ⟨d2, hd2, hid⟩
  rcases List.mem_filter.mp hd2 with ⟨hd2docs, hd2m⟩
  have hdd : d2 = d := List.inj_on_of_nodup_map hnd hd2docs hd hid
  rw [he]
  exact hdd ▸ hd2m

theorem post_step_sound {ix : VectorIndex} {f : Filter} {q : List ℚ}
    {k m : Nat} {r : SearchResult} (h : r ∈ post_filter_step ix f q k m) :
    f.matchesP r.payload = true := by
  unfold post_filter_step at h
  exact (List.mem_filter.mp (List.mem_of_mem_take h)).2

theorem post_ladder_sound {ix : VectorIndex} {f : Filter} {q : List ℚ}
    {k : Nat} : ∀ (ladder : List Nat) {r : SearchResult},
    r ∈ execute_post_filter ix f q k ladder → f.matchesP r.payload = true
  | [], r, h => by simp [execute_post_filter] at h
  | [m], r, h => post_step_sound (by simpa [execute_post_filter] using h)
  | m :: m2 :: ms, r, h => by
    simp only [execute_post_filter] at h
    by_cases hc : (post_filter_step ix f q k m).length < k ∧ k * m < ix.len
    · rw [if_pos hc] at h
      exact post_ladder_sound (m2 :: ms) h
    · rw [if_neg hc] at h
      exact post_step_sound h

theorem scenarioB_eval :
    execute_post_filter scenarioIndex filterCatB [1, 0] 2 [1, 3]
      = [⟨3, 0, catB⟩] := by
  have hab : ("a" : String) ≠ "b" := by decide
  norm_num [execute_post_filter, post_filter_step, VectorIndex.search,
    VectorIndex.rank, VectorIndex.toResult, VectorIndex.len, scenarioIndex,
    docA1, docA2, docB3, dotQ, rankLE, filterCatB, catA, catB,
    Filter.matchesP, lookupField, List.filter_cons, hab]

theorem scenarioB_filtered :
    filtered_search scenarioIndex [1, 3] scenarioEstimator (some filterCatB)
      .postFilter [1, 0] 2 = .ok [⟨3, 0, catB⟩] := by
  unfold filtered_search
  rw [if_pos (by decide)]
  show Except.ok (execute_post_filter scenarioIndex filterCatB [1, 0] 2 [1, 3])
    = _
  rw [scenarioB_eval]

/-- C1: for every filter predicate, corpus with distinct document ids, query
vector and `top_k`, every `SearchResult` the filtered-search executor returns
under the PreFilter strategy satisfies the predicate, and every result it
returns under the PostFilter strategy satisfies the predicate (PostFilter may
under-return, but never returns a violating result). -/
theorem C1_filter_soundness (ix : VectorIndex) (ladder : List Nat)
    (est : SelectivityEstimator) (f : Filter) (q : List ℚ) (k : Nat)
    (hnd : (ix.docs.map Doc.id).Nodup) :
    (∀ rs, filtered_search ix ladder est (some f) .preFilter q k = .ok rs →
      ∀ r ∈ rs, f.matchesP r.payload = true)
    ∧ (∀ rs, filtered_search ix ladder est (some f) .postFilter q k = .ok rs →
      ∀ r ∈ rs, f.matchesP r.payload = true) := by
  constructor
  · intro rs hok r hr
    unfold filtered_search at hok
    by_cases hdim : q.length = ix.dimension
    · rw [if_pos hdim] at hok
      have hrs : execute_pre_filter ix f q k = rs := Except.ok.inj hok
      rw [← hrs] at hr
      exact pre_filter_sound hnd hr
    · rw [if_neg hdim] at hok
      exact Except.noConfusion hok
  · intro rs hok r hr
    unfold filtered_search at hok
    by_cases hdim : q.length = ix.dimension
    · rw [if_pos hdim] at hok
      have hrs : execute_post_filter ix f q k ladder = rs := Except.ok.inj hok
      rw [← hrs] at hr
      exact post_ladder_sound ladder hr
    · rw [if_neg hdim] at hok
      exact Except.noConfusion hok

/-- Closed instance of `C1_filter_soundness`: the Scenario B PostFilter run
returns only results in category `b`. -/
theorem C1_filter_soundness_witness :
    filterCatB.matchesP (⟨3, 0, catB⟩ : SearchResult).payload = true :=
  (C1_filter_soundness scenarioIndex [1, 3] scenarioEstimator filterCatB
      [1, 0] 2 (by decide)).2
    [⟨3, 0, catB⟩] scenarioB_filtered ⟨3, 0, catB⟩ (by simp)

/-- C7: under PostFilter the executor requests `top_k * multiplier` candidates
from the unrestricted index, applies the predicate and truncates to `top_k`;
it escalates the multiplier ladder only while the filtered results number
fewer than `top_k` and more candidates exist; an exhausted ladder returns the
short list as a normal, error-free outcome — on Scenario B (`filter =
Eq(cat, "b")`, PostFilter, ladder `1×→3×`, `top_k = 2`) it returns exactly the
single result with id 3 and the executor reports success. -/
theorem C7_post_filter_ladder (ix : VectorIndex) (f : Filter) (q : List ℚ)
    (k m m2 : Nat) (ms : List Nat) :
    post_filter_step ix f q k m
        = ((ix.search q (k * m)).filter (fun r => f.matchesP r.payload)).take k
    ∧ execute_post_filter ix f q k [m] = post_filter_step ix f q k m
    ∧ execute_post_filter ix f q k (m :: m2 :: ms)
        = (if (post_filter_step ix f q k m).length < k ∧ k * m < ix.len then
            execute_post_filter ix f q k (m2 :: ms)
          else post_filter_step ix f q k m)
    ∧ execute_post_filter scenarioIndex filterCatB [1, 0] 2 [1, 3]
        = [⟨3, 0, catB⟩]
    ∧ filtered_search scenarioIndex [1, 3] scenarioEstimator (some filterCatB)
        .postFilter [1, 0] 2 = .ok [⟨3, 0, catB⟩] :=
  ⟨rfl, rfl, rfl, scenarioB_eval, scenarioB_filtered⟩

end Barq

namespace Barq

theorem sorted_nodup_pairwise {sim : Bool} {l : List SearchResult}
    (hs : l.Pairwise (rankLE sim)) (hnd : (l.map SearchResult.id).Nodup) :
    l.Pairwise (rankedBefore sim) := by
  have hboth := hs.and (List.pairwise_map.mp hnd)
  refine hboth.imp ?_
  intro a b hab
  obtain ⟨hle, hne⟩ := hab
  cases sim
  · simp only [rankLE] at hle
    simp only [rankedBefore]
    rcases hle with h | ⟨he, hi⟩
    · exact Or.inl h
    · exact Or.inr ⟨he, lt_of_le_of_ne hi hne⟩
  · simp only [rankLE] at hle
    simp only [rankedBefore]
    rcases hle with h | ⟨he, hi⟩
    · exact Or.inl h
    · exact Or.inr ⟨he, lt_of_le_of_ne hi hne⟩

theorem search_sorted (ix : VectorIndex) (q : List ℚ) (k : Nat) :
    (ix.search q k).Pairwise (rankLE ix.similarity) :=
  List.Pairwise.sublist (List.take_sublist _ _) (rank_sorted ix q ix.docs)

theorem search_ids_nodup {ix : VectorIndex} {q : List ℚ} {k : Nat}
    (hnd : (ix.docs.map Doc.id).Nodup) :
    ((ix.search q k).map SearchResult.id).Nodup :=
  List.Nodup.sublist ((List.take_sublist _ _).map _) (rank_ids_nodup hnd)

theorem pre_sorted (ix : VectorIndex) (f : Filter) (q : List ℚ) (k : Nat) :
    (execute_pre_filter ix f q k).Pairwise (rankLE ix.similarity) :=
  List.Pairwise.sublist (List.take_sublist _ _) (rank_sorted ix q _)

theorem pre_ids_nodup {ix : VectorIndex} {f : Filter} {q : List ℚ} {k : Nat}
    (hnd : (ix.docs.map Doc.id).Nodup) :
    ((execute_pre_filter ix f q k).map SearchResult.id).Nodup :=
  List.Nodup.sublist ((List.take_sublist _ _).map _)
    (rank_ids_nodup
      (List.Nodup.sublist ((List.filter_sublist _).map Doc.id) hnd))

theorem step_sorted (ix : VectorIndex) (f : Filter) (q : List ℚ) (k m : Nat) :
    (post_filter_step ix f q k m).Pairwise (rankLE ix.similarity) :=
  List.Pairwise.sublist (List.take_sublist _ _)
    (List.Pairwise.sublist (List.filter_sublist _) (search_sorted ix q (k * m)))

theorem step_ids_nodup {ix : VectorIndex} {f : Filter} {q : List ℚ} {k m : Nat}
    (hnd : (ix.docs.map Doc.id).Nodup) :
    ((post_filter_step ix f q k m).map SearchResult.id).Nodup :=
  List.Nodup.sublist ((List.take_sublist _ _).map _)
    (List.Nodup.sublist ((List.filter_sublist _).map _) (search_ids_nodup hnd))

theorem ladder_sorted (ix : VectorIndex) (f : Filter) (q : List ℚ) (k : Nat) :
    ∀ ladder : List Nat,
    (execute_post_filter ix f q k ladder).Pairwise (rankLE ix.similarity)
  | [] => by simp [execute_post_filter]
  | [m] => by
    simp only [execute_post_filter]
    exact step_sorted ix f q k m
  | m :: m2 :: ms => by
    simp only [execute_post_filter]
    by_cases hc : (post_filter_step ix f q k m).length < k ∧ k * m < ix.len
    · rw [if_pos hc]
      exact ladder_sorted ix f q k (m2 :: ms)
    · rw [if_neg hc]
      exact step_sorted ix f q k m

theorem ladder_ids_nodup {ix : VectorIndex} {f : Filter} {q : List ℚ} {k : Nat}
    (hnd : (ix.docs.map Doc.id).Nodup) :
    ∀ ladder : List Nat,
    ((execute_post_filter ix f q k ladder).map SearchResult.id).Nodup
  | [] => by simp [execute_post_filter]
  | [m] => by
    simp only [execute_post_filter]
    exact step_ids_nodup hnd
  | m :: m2 :: ms => by
    simp only [execute_post_filter]
    by_cases hc : (post_filter_step ix f q k m).length < k ∧ k * m < ix.len
    · rw [if_pos hc]
      exact ladder_ids_nodup hnd (m2 :: ms)
    · rw [if_neg hc]
      exact step_ids_nodup hnd

/-- C9: every result list returned by a single filtered or unfiltered search
(over a corpus with distinct document ids) is sorted by score — descending for
similarity metrics, ascending for distance metrics — with ties on score broken
by strictly ascending document id. -/
theorem C9_result_ordering (ix : VectorIndex) (ladder : List Nat)
    (est : SelectivityEstimator) (filterOpt : Option Filter)
    (strat : FilterStrategy) (q : List ℚ) (k : Nat) (rs : List SearchResult)
    (hnd : (ix.docs.map Doc.id).Nodup)
    (hok : filtered_search ix ladder est filterOpt strat q k = .ok rs) :
    rs.Pairwise (rankedBefore ix.similarity) := by
  unfold filtered_search at hok
  by_cases hdim : q.length = ix.dimension
  · rw [if_pos hdim] at hok
    cases filterOpt with
    | none =>
      have hrs : ix.search q k = rs := Except.ok.inj hok
      exact hrs ▸ sorted_nodup_pairwise (search_sorted ix q k)
        (search_ids_nodup hnd)
    | some f =>
      have hok2 : Except.ok (match choose_strategy est f strat with
          | Decision.usePre => execute_pre_filter ix f q k
          | Decision.usePost => execute_post_filter ix f q k ladder)
          = Except.ok rs := hok
      cases hchoice : choose_strategy est f strat with
      | usePre =>
        rw [hchoice] at hok2
        have hrs : execute_pre_filter ix f q k = rs := Except.ok.inj hok2
        exact hrs ▸ sorted_nodup_pairwise (pre_sorted ix f q k)
          (pre_ids_nodup hnd)
      | usePost =>
        rw [hchoice] at hok2
        have hrs : execute_post_filter ix f q k ladder = rs :=
          Except.ok.inj hok2
        exact hrs ▸ sorted_nodup_pairwise (ladder_sorted ix f q k ladder)
          (ladder_ids_nodup hnd ladder)
  · rw [if_neg hdim] at hok
    exact Except.noConfusion hok

/-- Closed instance of `C9_result_ordering` at the Scenario B run. -/
theorem C9_result_ordering_witness :
    ([(⟨3, 0, catB⟩ : SearchResult)]).Pairwise
      (rankedBefore scenarioIndex.similarity) :=
  C9_result_ordering scenarioIndex [1, 3] scenarioEstimator (some filterCatB)
    .postFilter [1, 0] 2 _ (by decide) scenarioB_filtered

end Barq

namespace Barq

theorem chunksOf_flatten (n : Nat) : (l : List α) → (chunksOf n l).flatten = l
  | [] => by simp [chunksOf]
  | x :: xs => by
    have ih := chunksOf_flatten n (xs.drop (n - 1))
    simp only [chunksOf, List.flatten_cons, ih]
    simp [List.take_append_drop]
termination_by l => l.length
decreasing_by simp only [List.length_drop, List.length_cons]; omega

theorem worker_outputs_eq (cfg : BatchConfig) (ix : VectorIndex)
    (ladder : List Nat) (est : SelectivityEstimator) (strat : FilterStrategy)
    (k : Nat) (queries : List (List ℚ × Option Filter)) :
    worker_outputs cfg ix ladder est strat k queries
      = (tagFrom 0 queries).map
          (fun p => (p.1, runQuery ix ladder est strat k p.2)) := by
  unfold worker_outputs
  rw [← List.map_flatten, chunksOf_flatten]

theorem tagFrom_getElem (i : Nat) : ∀ (l : List α) (j : Nat),
    (tagFrom i l)[j]? = l[j]?.map (fun x => (i + j, x))
  | [], j => by simp [tagFrom]
  | x :: xs, 0 => by simp [tagFrom]
  | x :: xs, j + 1 => by
    have ih := tagFrom_getElem (i + 1) xs j
    have harith : i + 1 + j = i + (j + 1) := by omega
    simp only [tagFrom, List.getElem?_cons_succ, ih, harith]

theorem tagFrom_fst_ge (i : Nat) : ∀ (l : List α), ∀ p ∈ tagFrom i l, i ≤ p.1
  | [], p, hp => by simp [tagFrom] at hp
  | x :: xs, p, hp => by
    simp only [tagFrom, List.mem_cons] at hp
    rcases hp with rfl | hp
    · exact le_refl i
    · exact le_trans (Nat.le_succ i) (tagFrom_fst_ge (i + 1) xs p hp)

theorem tagFrom_keys_nodup (i : Nat) : ∀ l : List α,
    ((tagFrom i l).map Prod.fst).Nodup
  | [] => by simp [tagFrom]
  | x :: xs => by
    simp only [tagFrom, List.map_cons, List.nodup_cons]
    refine ⟨?_, tagFrom_keys_nodup (i + 1) xs⟩
    intro hmem
    rcases List.mem_map.mp hmem with ⟨p, hp, hpi⟩
    have := tagFrom_fst_ge (i + 1) xs p hp
    omega

theorem find_key_of_mem {β : Type} : ∀ (l : List (Nat × β)) (i : Nat) (x : β),
    (i, x) ∈ l → (l.map Prod.fst).Nodup →
    l.find? (fun p => p.1 == i) = some (i, x)
  | [], i, x, h, _ => by simp at h
  | (j, y) :: t, i, x, h, hnd => by
    by_cases hji : j = i
    · subst hji
      rw [List.find?_cons_of_pos _ (by simp)]
      rcases List.mem_cons.mp h with he | ht
      · injection he with h1 h2
        subst h2
        rfl
      · exfalso
        simp only [List.map_cons, List.nodup_cons] at hnd
        exact hnd.1 (List.mem_map.mpr ⟨(j, x), ht, rfl⟩)
    · rw [List.find?_cons_of_neg _ (by simp [hji])]
      have ht : (i, x) ∈ t := by
        rcases List.mem_cons.mp h with he | ht2
        · exact absurd (congrArg Prod.fst he).symm hji
        · exact ht2
      refine find_key_of_mem t i x ht ?_
      simp only [List.map_cons, List.nodup_cons] at hnd
      exact hnd.2

theorem batch_assemble_complete (cfg : BatchConfig) (ix : VectorIndex)
    (ladder : List Nat) (est : SelectivityEstimator) (strat : FilterStrategy)
    (k : Nat) (queries : List (List ℚ × Option Filter))
    (completed : List (Nat × Except VError (List SearchResult)))
    (hperm : completed.Perm
      (worker_outputs cfg ix ladder est strat k queries)) :
    batch_assemble queries completed
      = queries.map (runQuery ix ladder est strat k) := by
  have hw := worker_outputs_eq cfg ix ladder est strat k queries
  have hkeysw :
      ((worker_outputs cfg ix ladder est strat k queries).map Prod.fst).Nodup
      := by
    rw [hw, List.map_map]
    exact tagFrom_keys_nodup 0 queries
  have hkeys : (completed.map Prod.fst).Nodup :=
    ((hperm.map Prod.fst).symm).nodup hkeysw
  apply List.ext_getElem?
  intro j
  by_cases hj : j < queries.length
  · have hqj : queries[j]? = some queries[j] := List.getElem?_eq_getElem hj
    have htag : (tagFrom 0 queries)[j]? = some (j, queries[j]) := by
      rw [tagFrom_getElem 0 queries j, hqj]
      simp
    have hmem : (j, runQuery ix ladder est strat k queries[j])
        ∈ worker_outputs cfg ix ladder est strat k queries := by
      rw [hw]
      exact List.mem_map.mpr ⟨(j, queries[j]), List.getElem?_mem htag, rfl⟩
    have hfind : completed.find? (fun p => p.1 == j)
        = some (j, runQuery ix ladder est strat k queries[j]) :=
      find_key_of_mem completed j _ (hperm.mem_iff.mpr hmem) hkeys
    unfold batch_assemble
    rw [List.getElem?_map, List.getElem?_map,
      List.getElem?_range hj, hqj]
    simp [hfind]
  · have hlen : queries.length ≤ j := not_lt.mp hj
    unfold batch_assemble
    rw [List.getElem?_map, List.getElem?_map,
      List.getElem?_eq_none (by simpa using hlen),
      List.getElem?_eq_none hlen]
    rfl

/-- C5: for every query list, batch configuration and worker completion order
(any permutation of the tagged worker outputs), batch assembly returns the
per-query results in exactly the input list's length and order; an empty
input produces no worker chunks and an empty output. -/
theorem C5_batch_order (cfg : BatchConfig) (ix : VectorIndex)
    (ladder : List Nat) (est : SelectivityEstimator) (strat : FilterStrategy)
    (k : Nat) (queries : List (List ℚ × Option Filter))
    (completed : List (Nat × Except VError (List SearchResult)))
    (hperm : completed.Perm
      (worker_outputs cfg ix ladder est strat k queries)) :
    batch_assemble queries completed
        = queries.map (runQuery ix ladder est strat k)
    ∧ (batch_assemble queries completed).length = queries.length
    ∧ (queries = [] →
        worker_outputs cfg ix ladder est strat k queries = []
        ∧ batch_assemble queries completed = []) := by
  have hmain :=
    batch_assemble_complete cfg ix ladder est strat k queries completed hperm
  refine ⟨hmain, by rw [hmain, List.length_map], ?_⟩
  rintro rfl
  exact ⟨by simp [worker_outputs, chunksOf, tagFrom], by rw [hmain]; rfl⟩

/-- Closed instance of `C5_batch_order`: a one-query batch assembled from the
worker outputs themselves (the identity completion order). -/
theorem C5_batch_order_witness :
    batch_assemble [([1, 0], none)]
        (worker_outputs ⟨4, true, 32⟩ scenarioIndex [1, 3] scenarioEstimator
          .postFilter 2 [([1, 0], none)])
      = [(([1, 0], none) : List ℚ × Option Filter)].map
          (runQuery scenarioIndex [1, 3] scenarioEstimator .postFilter 2) :=
  (C5_batch_order ⟨4, true, 32⟩ scenarioIndex [1, 3] scenarioEstimator
    .postFilter 2 [([1, 0], none)] _ (List.Perm.refl _)).1

/-- C6: in batch search, the slot of a query whose vector has the wrong
dimension carries exactly that query's `DimensionMismatch` error, while every
sibling slot carries its own query's outcome (an `.ok` result whenever its
dimension is valid) — one query's failure never fails the whole batch. -/
theorem C6_batch_failure_isolation (cfg : BatchConfig) (ix : VectorIndex)
    (ladder : List Nat) (est : SelectivityEstimator) (strat : FilterStrategy)
    (k : Nat) (queries : List (List ℚ × Option Filter))
    (completed : List (Nat × Except VError (List SearchResult))) (j : Nat)
    (qf : List ℚ × Option Filter)
    (hperm : completed.Perm
      (worker_outputs cfg ix ladder est strat k queries))
    (hq : queries[j]? = some qf) :
    (batch_assemble queries completed)[j]?
        = some (runQuery ix ladder est strat k qf)
    ∧ (qf.1.length ≠ ix.dimension →
        runQuery ix ladder est strat k qf = .error .dimensionMismatch)
    ∧ (qf.1.length = ix.dimension →
        ∃ rs, runQuery ix ladder est strat k qf = .ok rs) := by
  refine ⟨?_, ?_, ?_⟩
  · rw [batch_assemble_complete cfg ix ladder est strat k queries completed
      hperm, List.getElem?_map, hq]
    rfl
  · intro hdim
    unfold runQuery filtered_search
    rw [if_neg hdim]
  · intro hdim
    unfold runQuery filtered_search
    rw [if_pos hdim]
    exact ⟨_, rfl⟩

/-- Closed instance of `C6_batch_failure_isolation`: in a two-query batch the
second query has dimension 1 against a 2-dimensional index, and its slot — and
only its slot — carries the `DimensionMismatch` error. -/
theorem C6_batch_failure_isolation_witness :
    (batch_assemble [([1, 0], none), ([1], none)]
        (worker_outputs ⟨4, true, 32⟩ scenarioIndex [1, 3] scenarioEstimator
          .postFilter 2 [([1, 0], none), ([1], none)]))[1]?
      = some (.error .dimensionMismatch) := by
  have h := C6_batch_failure_isolation ⟨4, true, 32⟩ scenarioIndex [1, 3]
    scenarioEstimator .postFilter 2 [([1, 0], none), ([1], none)] _ 1
    ([1], none) (List.Perm.refl _) (by rfl)
  rw [h.1, h.2.1 (by decide)]

end Barq
